import Mathlib

/-!
Shallow embedding of `src/gildedrose.rs` (Gilded Rose kata, Rust variant).

The Rust program stores items as `(name, sell_in, quality)` with `i32`
fields, classifies each item by its name (`CalculatorFactory::create_calculator`)
and applies per-category quality and sell-in transitions once per call of
`GildedRose::update_quality`.  Machine integers are modelled as `Int`: the
program only adds or subtracts small constants, so `i32` overflow is out of
range for every behaviour the claims mention.
-/

namespace GildedRose

/-- An inventory item, mirroring `struct Item` in the source. -/
structure Item where
  name : String
  sell_in : Int
  quality : Int
deriving DecidableEq, Repr

/-- Bool test: does `pat` occur at the head of `s`? (helper for substring
containment, mirroring Rust `str::contains`). -/
def leadMatch : List Char → List Char → Bool
  | [], _ => true
  | _ :: _, [] => false
  | a :: as, b :: bs => a == b && leadMatch as bs

/-- Bool test: does `pat` occur anywhere in `s` (as a contiguous run)?
Mirrors Rust `str::contains` on character lists. -/
def hasSubL (pat : List Char) : List Char → Bool
  | [] => leadMatch pat []
  | c :: rest => leadMatch pat (c :: rest) || hasSubL pat rest

/-- `hasSub s pat` mirrors Rust `s.contains(pat)`. -/
def hasSub (s pat : String) : Bool := hasSubL pat.data s.data

/-- The four calculator structs the factory can return
(`AgedBrie`, `BackstagePasses`, `Sulfuras`, `DefaultItem`). -/
inductive Category where
  | agedBrie
  | backstagePasses
  | sulfuras
  | defaultItem
deriving DecidableEq, Repr

/-- `DefaultQualityIncrement::get`: -2 once `sell_in < 1`, else -1. -/
def defaultQualityIncrementGet (sell_in : Int) : Int :=
  if sell_in < 1 then -2 else -1

/-- `AgedBrie::calculate_quality_increment`: the negated default increment. -/
def agedBrieQualityIncrement (sell_in : Int) : Int :=
  -(defaultQualityIncrementGet sell_in)

/-- `BackstagePasses::calculate_item_quality_increment`. -/
def backstageQualityIncrement (sell_in quality : Int) : Int :=
  if sell_in < 11 ∧ sell_in > 5 then 2
  else if sell_in ≤ 5 ∧ sell_in > 0 then 3
  else if sell_in ≤ 0 then -quality
  else 1

/-- `CalculateQuality::calculate_new_quality` for each calculator struct. -/
def calculate_new_quality : Category → Int → Int → Int
  | .agedBrie, sell_in, quality =>
      min (quality + agedBrieQualityIncrement sell_in) 50
  | .backstagePasses, sell_in, quality =>
      min (quality + backstageQualityIncrement sell_in quality) 50
  | .sulfuras, _, _ => 80
  | .defaultItem, sell_in, quality =>
      max (quality + defaultQualityIncrementGet sell_in) 0

/-- `CalculateSellIn::calculate_new_sell_in`: the trait default decrements,
`Sulfuras` overrides it with the identity. -/
def calculate_new_sell_in : Category → Int → Int
  | .sulfuras, sell_in => sell_in
  | _, sell_in => sell_in - 1

/-- `CalculatorFactory::create_calculator`: name-based dispatch, in source
order (exact match "Aged Brie", then `contains` checks, then the default). -/
def create_calculator (name : String) : Category :=
  if name = "Aged Brie" then .agedBrie
  else if hasSub name "Backstage passes" then .backstagePasses
  else if hasSub name "Sulfuras" then .sulfuras
  else .defaultItem

/-- `GildedRose::calculate_quality`: new quality from the item's current
name, sell_in and quality. -/
def calculate_quality (it : Item) : Int :=
  calculate_new_quality (create_calculator it.name) it.sell_in it.quality

/-- `GildedRose::calculate_sell_in`: new sell_in from the item's current
name and sell_in. -/
def calculate_sell_in (it : Item) : Int :=
  calculate_new_sell_in (create_calculator it.name) it.sell_in

/-- The body of the `update_quality` loop for one item: quality is written
first (from the pre-tick fields), then sell_in is recomputed from the
partially updated item, whose name and sell_in are still the pre-tick ones. -/
def updateItem (it : Item) : Item :=
  let it1 : Item := { it with quality := calculate_quality it }
  { it1 with sell_in := calculate_sell_in it1 }

/-- `GildedRose::update_quality`: one pass over the collection, each index
rewritten from its own value. -/
def update_quality (items : List Item) : List Item :=
  items.map updateItem

/-- The clamp the specification describes for every non-Legendary category:
`max(0, min(50, value))`.  Modelled from the spec for comparison with the
code's per-category clamps; the code itself never computes this. -/
def specTwoSidedClamp (x : Int) : Int := max 0 (min 50 x)

end GildedRose

namespace GildedRose

/-! Basic facts about one update step. -/

lemma updateItem_name (it : Item) : (updateItem it).name = it.name := rfl

lemma updateItem_quality (it : Item) :
    (updateItem it).quality
      = calculate_new_quality (create_calculator it.name) it.sell_in it.quality := rfl

lemma updateItem_sell_in (it : Item) :
    (updateItem it).sell_in
      = calculate_new_sell_in (create_calculator it.name) it.sell_in := rfl

/-- A name containing "Backstage passes" is dispatched to the
`BackstagePasses` calculator (it cannot equal "Aged Brie"). -/
lemma create_calculator_backstage (name : String)
    (h : hasSub name "Backstage passes" = true) :
    create_calculator name = Category.backstagePasses := by
  have hne : name ≠ "Aged Brie" := by
    intro heq
    rw [heq] at h
    exact absurd h (by decide)
  simp [create_calculator, hne, h]

/-- A name containing "Sulfuras" but not "Backstage passes" is dispatched to
the `Sulfuras` calculator (it cannot equal "Aged Brie"). -/
lemma create_calculator_sulfuras (name : String)
    (hs : hasSub name "Sulfuras" = true)
    (hb : hasSub name "Backstage passes" = false) :
    create_calculator name = Category.sulfuras := by
  have hne : name ≠ "Aged Brie" := by
    intro heq
    rw [heq] at hs
    exact absurd hs (by decide)
  simp [create_calculator, hne, hb, hs]

/-- One tick keeps the quality of a non-`Sulfuras` calculator inside
`[0, 50]` when it started there. -/
lemma quality_step_in_range (c : Category) (hc : c ≠ Category.sulfuras)
    (s q : Int) (h0 : 0 ≤ q) (h50 : q ≤ 50) :
    0 ≤ calculate_new_quality c s q ∧ calculate_new_quality c s q ≤ 50 := by
  cases c with
  | sulfuras => exact absurd rfl hc
  | agedBrie =>
      simp only [calculate_new_quality, agedBrieQualityIncrement,
        defaultQualityIncrementGet]
      split <;> omega
  | backstagePasses =>
      simp only [calculate_new_quality, backstageQualityIncrement]
      split_ifs <;> omega
  | defaultItem =>
      simp only [calculate_new_quality, defaultQualityIncrementGet]
      split <;> omega

/-- C1: the factory has no branch for names containing "Conjured", so
"Conjured Mana Cake" falls through to `DefaultItem` and degrades by 1
(not 2) per day before the sell-by date: one tick turns
`("Conjured Mana Cake", 3, 6)` into `(2, 5)`, not the `(2, 4)` the claim
(and the repository's own `conjured` tests) require; likewise
`("Conjured Cookie", 20, 50)` becomes `(19, 49)` where the test asserts 48,
and `("Conjured Cookie", -4, 50)` becomes `(-5, 48)` where the test
asserts 46. -/
theorem c1_conjured_treated_as_ordinary :
    create_calculator "Conjured Mana Cake" = Category.defaultItem ∧
    updateItem ⟨"Conjured Mana Cake", 3, 6⟩ = ⟨"Conjured Mana Cake", 2, 5⟩ ∧
    updateItem ⟨"Conjured Cookie", 20, 50⟩ = ⟨"Conjured Cookie", 19, 49⟩ ∧
    updateItem ⟨"Conjured Cookie", -4, 50⟩ = ⟨"Conjured Cookie", -5, 48⟩ :=
  ⟨by decide, by decide, by decide, by decide⟩

/-- C2 counterexample: a Sulfuras item constructed with quality 75 does not
keep its quality across one tick — `Sulfuras::calculate_new_quality`
returns the constant 80, it does not return the unchanged input. -/
theorem c2_quality_replaced_counterexample :
    hasSub "Sulfuras" "Sulfuras" = true ∧
    updateItem ⟨"Sulfuras", 20, 75⟩ = ⟨"Sulfuras", 20, 80⟩ ∧
    (updateItem ⟨"Sulfuras", 20, 75⟩).quality ≠ (⟨"Sulfuras", 20, 75⟩ : Item).quality :=
  ⟨by decide, by decide, by decide⟩

/-- C2 amended: for every item the factory dispatches to `Sulfuras`, any
number of ticks leaves sell_in unchanged; quality is replaced by the
constant 80 on every tick (so it equals 80 after at least one tick), and is
therefore unchanged exactly when the item was constructed with quality 80. -/
theorem c2_legendary_amended :
    ∀ (it : Item), create_calculator it.name = Category.sulfuras →
      ∀ n : Nat,
        (updateItem^[n] it).sell_in = it.sell_in ∧
        (1 ≤ n → (updateItem^[n] it).quality = 80) ∧
        (it.quality = 80 → (updateItem^[n] it).quality = it.quality) := by
  suffices h : ∀ n : Nat, ∀ it : Item,
      create_calculator it.name = Category.sulfuras →
      (updateItem^[n] it).sell_in = it.sell_in ∧
      (1 ≤ n → (updateItem^[n] it).quality = 80) ∧
      (it.quality = 80 → (updateItem^[n] it).quality = it.quality) by
    intro it hcat n
    exact h n it hcat
  intro n
  induction n with
  | zero =>
      intro it _
      exact ⟨rfl, fun hn => absurd hn (by omega), fun _ => rfl⟩
  | succ n ih =>
      intro it hcat
      have hcat1 : create_calculator (updateItem it).name = Category.sulfuras := by
        rw [updateItem_name]
        exact hcat
      have hs : (updateItem it).sell_in = it.sell_in := by
        rw [updateItem_sell_in, hcat]
        rfl
      have hq : (updateItem it).quality = 80 := by
        rw [updateItem_quality, hcat]
        rfl
      obtain ⟨ih1, ih2, _⟩ := ih (updateItem it) hcat1
      rw [Function.iterate_succ_apply]
      refine ⟨by rw [ih1, hs], ?_, ?_⟩
      · intro _
        rcases Nat.eq_zero_or_pos n with h0 | hpos
        · subst h0
          simpa using hq
        · exact ih2 hpos
      · intro h80
        rw [h80]
        rcases Nat.eq_zero_or_pos n with h0 | hpos
        · subst h0
          simpa using hq
        · exact ih2 hpos

/-- C2 amended, witnessed at ("Sulfuras", 20, 80) over two ticks. -/
theorem c2_legendary_amended_witness :
    (updateItem^[2] (⟨"Sulfuras", 20, 80⟩ : Item)).sell_in = 20 ∧
    (updateItem^[2] (⟨"Sulfuras", 20, 80⟩ : Item)).quality = 80 :=
  ⟨(c2_legendary_amended ⟨"Sulfuras", 20, 80⟩ (by decide) 2).1,
   (c2_legendary_amended ⟨"Sulfuras", 20, 80⟩ (by decide) 2).2.1 (by omega)⟩

/-- C3 counterexample: an Ordinary item constructed with quality 60 has
quality 59 after one tick — `DefaultItem` clamps only from below with
`.max(0)`, so the claimed two-sided clamp `max(0, min(50, 60 - 1)) = 50`
disagrees with the code and the quality is not back inside `[0, 50]`. -/
theorem c3_two_sided_clamp_counterexample :
    create_calculator "Item" = Category.defaultItem ∧
    (updateItem ⟨"Item", 10, 60⟩).quality = 59 ∧
    specTwoSidedClamp ((60 : Int) + defaultQualityIncrementGet 10) = 50 ∧
    ¬ ((updateItem ⟨"Item", 10, 60⟩).quality ≤ 50) :=
  ⟨by decide, by decide, by decide, by decide⟩

/-- C3 amended: each non-Legendary category applies its full-day delta and
then clamps once, but one-sidedly — `DefaultItem` as `max(·, 0)`,
`AgedBrie` and `BackstagePasses` as `min(·, 50)`.  Consequently only the
clamped side self-corrects: a quality below 0 is back in `[0, 50]` after an
Ordinary tick, and a quality above 50 is back in `[0, 50]` after an
AgedBrie or BackstagePasses tick, but not conversely
(cf. the counterexample). -/
theorem c3_one_sided_clamp_amended :
    ∀ (s q : Int),
      calculate_new_quality Category.defaultItem s q
          = max (q + defaultQualityIncrementGet s) 0 ∧
      calculate_new_quality Category.agedBrie s q
          = min (q + agedBrieQualityIncrement s) 50 ∧
      calculate_new_quality Category.backstagePasses s q
          = min (q + backstageQualityIncrement s q) 50 ∧
      (q < 0 → calculate_new_quality Category.defaultItem s q = 0) ∧
      (50 < q → calculate_new_quality Category.agedBrie s q = 50) ∧
      (50 < q → 0 ≤ calculate_new_quality Category.backstagePasses s q ∧
        calculate_new_quality Category.backstagePasses s q ≤ 50) := by
  intro s q
  refine ⟨rfl, rfl, rfl, ?_, ?_, ?_⟩
  · intro h
    simp only [calculate_new_quality, defaultQualityIncrementGet]
    split <;> omega
  · intro h
    simp only [calculate_new_quality, agedBrieQualityIncrement,
      defaultQualityIncrementGet]
    split <;> omega
  · intro h
    simp only [calculate_new_quality, backstageQualityIncrement]
    split_ifs <;> omega

/-- C3 amended, witnessed at out-of-range qualities -5 and 60. -/
theorem c3_one_sided_clamp_amended_witness :
    calculate_new_quality Category.defaultItem 10 (-5) = 0 ∧
    calculate_new_quality Category.agedBrie 10 60 = 50 ∧
    (0 ≤ calculate_new_quality Category.backstagePasses 10 60 ∧
      calculate_new_quality Category.backstagePasses 10 60 ≤ 50) :=
  ⟨(c3_one_sided_clamp_amended 10 (-5)).2.2.2.1 (by decide),
   (c3_one_sided_clamp_amended 10 60).2.2.2.2.1 (by decide),
   (c3_one_sided_clamp_amended 10 60).2.2.2.2.2 (by decide)⟩

/-- C4: for every item of a non-Legendary category whose quality lies in
`[0, 50]` before a tick, the quality still lies in `[0, 50]` after any
number of ticks. -/
theorem c4_quality_range_invariant :
    ∀ (it : Item), create_calculator it.name ≠ Category.sulfuras →
      0 ≤ it.quality → it.quality ≤ 50 →
      ∀ n : Nat,
        0 ≤ (updateItem^[n] it).quality ∧ (updateItem^[n] it).quality ≤ 50 := by
  suffices h : ∀ n : Nat, ∀ it : Item,
      create_calculator it.name ≠ Category.sulfuras →
      0 ≤ it.quality → it.quality ≤ 50 →
      0 ≤ (updateItem^[n] it).quality ∧ (updateItem^[n] it).quality ≤ 50 by
    intro it hcat h0 h50 n
    exact h n it hcat h0 h50
  intro n
  induction n with
  | zero =>
      intro it _ h0 h50
      exact ⟨h0, h50⟩
  | succ n ih =>
      intro it hcat h0 h50
      rw [Function.iterate_succ_apply]
      have hstep := quality_step_in_range (create_calculator it.name) hcat
        it.sell_in it.quality h0 h50
      refine ih (updateItem it) ?_ ?_ ?_
      · rw [updateItem_name]
        exact hcat
      · rw [updateItem_quality]
        exact hstep.1
      · rw [updateItem_quality]
        exact hstep.2

/-- C4, witnessed at ("Item", 5, 30) over three ticks. -/
theorem c4_quality_range_invariant_witness :
    0 ≤ (updateItem^[3] (⟨"Item", 5, 30⟩ : Item)).quality ∧
    (updateItem^[3] (⟨"Item", 5, 30⟩ : Item)).quality ≤ 50 :=
  c4_quality_range_invariant ⟨"Item", 5, 30⟩ (by decide) (by decide) (by decide) 3

/-- C5: for every item whose name contains "Backstage passes", one tick
adds 1 to quality when `sell_in > 10`, 2 when `5 < sell_in ≤ 10`, 3 when
`0 < sell_in ≤ 5` (each capped at 50 by `min`), sets quality to exactly 0
when `sell_in ≤ 0`, and decrements sell_in by 1; in particular
("Backstage passes", 5, 10) becomes (4, 13). -/
theorem c5_backstage_tick :
    (∀ (it : Item), hasSub it.name "Backstage passes" = true →
      (10 < it.sell_in → (updateItem it).quality = min (it.quality + 1) 50) ∧
      (5 < it.sell_in → it.sell_in ≤ 10 →
        (updateItem it).quality = min (it.quality + 2) 50) ∧
      (0 < it.sell_in → it.sell_in ≤ 5 →
        (updateItem it).quality = min (it.quality + 3) 50) ∧
      (it.sell_in ≤ 0 → (updateItem it).quality = 0) ∧
      (updateItem it).sell_in = it.sell_in - 1) ∧
    updateItem ⟨"Backstage passes", 5, 10⟩ = ⟨"Backstage passes", 4, 13⟩ := by
  constructor
  · intro it h
    have hcat := create_calculator_backstage it.name h
    rw [updateItem_quality, updateItem_sell_in, hcat]
    refine ⟨?_, ?_, ?_, ?_, rfl⟩
    · intro h1
      simp only [calculate_new_quality, backstageQualityIncrement]
      split_ifs <;> omega
    · intro h1 h2
      simp only [calculate_new_quality, backstageQualityIncrement]
      split_ifs <;> omega
    · intro h1 h2
      simp only [calculate_new_quality, backstageQualityIncrement]
      split_ifs <;> omega
    · intro h1
      simp only [calculate_new_quality, backstageQualityIncrement]
      split_ifs <;> omega
  · decide

/-- C5, witnessed in the +3 branch and the expiry branch. -/
theorem c5_backstage_tick_witness :
    (updateItem (⟨"Backstage passes", 5, 10⟩ : Item)).quality = min ((10 : Int) + 3) 50 ∧
    (updateItem (⟨"Backstage passes", 0, 10⟩ : Item)).quality = 0 :=
  ⟨(c5_backstage_tick.1 ⟨"Backstage passes", 5, 10⟩ (by decide)).2.2.1
      (by decide) (by decide),
   (c5_backstage_tick.1 ⟨"Backstage passes", 0, 10⟩ (by decide)).2.2.2.1
      (by decide)⟩

/-- C6: for every item dispatched to `DefaultItem` (the Ordinary fallback),
one tick with `quality > 0` and `sell_in ≥ 1` decreases quality by exactly
1 and sell_in by exactly 1; one tick with `sell_in ≤ 0` decreases quality
by exactly 2, clamped at 0. -/
theorem c6_ordinary_tick :
    ∀ (it : Item), create_calculator it.name = Category.defaultItem →
      (0 < it.quality → 1 ≤ it.sell_in →
        (updateItem it).quality = it.quality - 1 ∧
        (updateItem it).sell_in = it.sell_in - 1) ∧
      (it.sell_in ≤ 0 → (updateItem it).quality = max (it.quality - 2) 0) := by
  intro it hcat
  rw [updateItem_quality, updateItem_sell_in, hcat]
  constructor
  · intro hq hs
    constructor
    · simp only [calculate_new_quality, defaultQualityIncrementGet]
      split <;> omega
    · rfl
  · intro hs
    simp only [calculate_new_quality, defaultQualityIncrementGet]
    split <;> omega

/-- C6, witnessed at ("Item", 10, 50) and ("Item", 0, 4). -/
theorem c6_ordinary_tick_witness :
    ((updateItem (⟨"Item", 10, 50⟩ : Item)).quality = 50 - 1 ∧
      (updateItem (⟨"Item", 10, 50⟩ : Item)).sell_in = 10 - 1) ∧
    (updateItem (⟨"Item", 0, 4⟩ : Item)).quality = max ((4 : Int) - 2) 0 :=
  ⟨(c6_ordinary_tick ⟨"Item", 10, 50⟩ (by decide)).1 (by decide) (by decide),
   (c6_ordinary_tick ⟨"Item", 0, 4⟩ (by decide)).2 (by decide)⟩

/-- C7: for every item named exactly "Aged Brie", one tick increases
quality by 1, or by 2 once `sell_in < 1`, capped at 50 by `min` (so the
result never exceeds 50), and decrements sell_in; in particular
("Aged Brie", 0, 49) becomes (-1, 50). -/
theorem c7_aged_brie_tick :
    (∀ (it : Item), it.name = "Aged Brie" →
      (updateItem it).quality
          = min (it.quality + (if it.sell_in < 1 then 2 else 1)) 50 ∧
      (updateItem it).quality ≤ 50 ∧
      (updateItem it).sell_in = it.sell_in - 1) ∧
    updateItem ⟨"Aged Brie", 0, 49⟩ = ⟨"Aged Brie", -1, 50⟩ := by
  constructor
  · intro it hname
    have hcat : create_calculator it.name = Category.agedBrie := by
      rw [hname]
      decide
    rw [updateItem_quality, updateItem_sell_in, hcat]
    refine ⟨?_, ?_, rfl⟩
    · simp only [calculate_new_quality, agedBrieQualityIncrement,
        defaultQualityIncrementGet]
      split <;> omega
    · simp only [calculate_new_quality]
      omega
  · decide

/-- C7, witnessed at ("Aged Brie", 0, 49). -/
theorem c7_aged_brie_tick_witness :
    (updateItem (⟨"Aged Brie", 0, 49⟩ : Item)).quality
        = min ((49 : Int) + (if (0 : Int) < 1 then 2 else 1)) 50 ∧
    (updateItem (⟨"Aged Brie", 0, 49⟩ : Item)).quality ≤ 50 ∧
    (updateItem (⟨"Aged Brie", 0, 49⟩ : Item)).sell_in = (0 : Int) - 1 :=
  c7_aged_brie_tick.1 ⟨"Aged Brie", 0, 49⟩ rfl

/-- C8: `update_quality` is a per-index map — the post-tick entry at every
index is `updateItem` of the pre-tick entry at the same index, and
`updateItem` itself computes the new quality from the pre-tick sell_in and
quality and the new sell_in from the pre-tick sell_in alone, with no
dependence on sibling items. -/
theorem c8_pointwise_update :
    ∀ (items : List Item) (i : Nat),
      (update_quality items)[i]? = Option.map updateItem items[i]? ∧
      ∀ (it : Item), updateItem it =
        { name := it.name,
          sell_in := calculate_new_sell_in (create_calculator it.name) it.sell_in,
          quality :=
            calculate_new_quality (create_calculator it.name) it.sell_in it.quality } := by
  intro items i
  refine ⟨?_, fun it => rfl⟩
  simp [update_quality, List.getElem?_map]

/-- C9 counterexample: an event pass already at quality 50 with
`sell_in = 3 > 0` keeps quality 50 after one tick — the tick does not
strictly increase quality at the cap. -/
theorem c9_strict_increase_counterexample :
    hasSub "Backstage passes" "Backstage passes" = true ∧
    (0 : Int) < (⟨"Backstage passes", 3, 50⟩ : Item).sell_in ∧
    (updateItem ⟨"Backstage passes", 3, 50⟩).quality = 50 ∧
    ¬ ((⟨"Backstage passes", 3, 50⟩ : Item).quality
        < (updateItem ⟨"Backstage passes", 3, 50⟩).quality) :=
  ⟨by decide, by decide, by decide, by decide⟩

/-- C9 amended: for every item whose name contains "Backstage passes", one
tick strictly increases quality while `sell_in > 0` provided
`quality < 50` (at `quality = 50` it stays exactly 50), and the tick that
starts with `sell_in ≤ 0` makes quality exactly 0. -/
theorem c9_eventpass_amended :
    ∀ (it : Item), hasSub it.name "Backstage passes" = true →
      (0 < it.sell_in → it.quality < 50 → it.quality < (updateItem it).quality) ∧
      (0 < it.sell_in → it.quality = 50 → (updateItem it).quality = 50) ∧
      (it.sell_in ≤ 0 → (updateItem it).quality = 0) := by
  intro it h
  have hcat := create_calculator_backstage it.name h
  rw [updateItem_quality, hcat]
  refine ⟨?_, ?_, ?_⟩
  · intro h1 h2
    simp only [calculate_new_quality, backstageQualityIncrement]
    split_ifs <;> omega
  · intro h1 h2
    simp only [calculate_new_quality, backstageQualityIncrement]
    split_ifs <;> omega
  · intro h1
    simp only [calculate_new_quality, backstageQualityIncrement]
    split_ifs <;> omega

/-- C9 amended, witnessed in the strict-increase and expiry branches. -/
theorem c9_eventpass_amended_witness :
    ((⟨"Backstage passes", 5, 10⟩ : Item).quality
        < (updateItem ⟨"Backstage passes", 5, 10⟩).quality) ∧
    (updateItem ⟨"Backstage passes", 0, 10⟩).quality = 0 :=
  ⟨(c9_eventpass_amended ⟨"Backstage passes", 5, 10⟩ (by decide)).1
      (by decide) (by decide),
   (c9_eventpass_amended ⟨"Backstage passes", 0, 10⟩ (by decide)).2.2
      (by decide)⟩

/-- C10 counterexample: a name containing both "Backstage passes" and
"Sulfuras" is dispatched to `BackstagePasses` (the factory checks
"Backstage passes" first), so this item ends one update at quality 13, not
80, although its name contains "Sulfuras". -/
theorem c10_contains_sulfuras_counterexample :
    hasSub "Backstage passes Sulfuras" "Sulfuras" = true ∧
    update_quality [⟨"Backstage passes Sulfuras", 3, 10⟩]
        = [⟨"Backstage passes Sulfuras", 2, 13⟩] ∧
    (updateItem ⟨"Backstage passes Sulfuras", 3, 10⟩).quality ≠ 80 :=
  ⟨by decide, by decide, by decide⟩

/-- C10 amended: after any `update_quality` call, every item whose name
contains "Sulfuras" and does not contain "Backstage passes" (so the
factory dispatches it to `Sulfuras`) has quality exactly 80, regardless of
the quality supplied at construction. -/
theorem c10_sulfuras_quality_80_amended :
    ∀ (items : List Item) (it : Item), it ∈ update_quality items →
      hasSub it.name "Sulfuras" = true →
      hasSub it.name "Backstage passes" = false →
      it.quality = 80 := by
  intro items it hmem hs hb
  unfold update_quality at hmem
  obtain ⟨a, _, rfl⟩ := List.mem_map.mp hmem
  rw [updateItem_name] at hs hb
  rw [updateItem_quality, create_calculator_sulfuras a.name hs hb]
  rfl

/-- C10 amended, witnessed: a Sulfuras item constructed with quality 75
reads quality 80 after one update. -/
theorem c10_sulfuras_quality_80_amended_witness :
    (updateItem (⟨"Sulfuras", 20, 75⟩ : Item)).quality = 80 :=
  c10_sulfuras_quality_80_amended [⟨"Sulfuras", 20, 75⟩]
    (updateItem ⟨"Sulfuras", 20, 75⟩) (by decide) (by decide) (by decide)

end GildedRose
